import Mathlib

/-!
Shallow embedding of `oio/event/beanstalk.py` (a beanstalkd wire-protocol
client) and proofs about its buffered reader, response framing, connection
pool and command/response engine.

Bytes are modelled as `Nat`, byte strings as `List Nat`.  The stream of
socket receives feeding a reader is modelled as a `List (List Nat)`: one
inner list per `recv` call, in order.  A `recv` that would block forever is
modelled by running out of chunks; a `recv` returning zero bytes (peer
closed) is an explicit empty chunk.  Python exceptions are modelled by
explicit result types.
-/

abbrev Byte := Nat

/-- `SYM_CRLF = '\r\n'` from the source, as bytes. -/
def SYM_CRLF : List Byte := [13, 10]

/-- The Python exceptions that the modelled code paths can raise.
`connectionClosed` is `ConnectionError(SERVER_CLOSED_CONNECTION_ERROR)`;
`transport` stands for the `TimeoutError` / `ConnectionError` raised inside
`_read_from_socket` (or a recv that would block forever); `attributeError`
and `indexError` are the corresponding Python builtins; `responseError` is
the bare `ResponseError()` raised by `parse_body`. -/
inductive PyErr where
  | connectionClosed
  | transport
  | attributeError
  | indexError
  | responseError
deriving DecidableEq, Repr

/-- Result of a modelled Python call: a value or a raised exception. -/
inductive PyResult (α : Type) where
  | ok (val : α)
  | err (e : PyErr)
deriving DecidableEq, Repr

/-- State of `Reader` (beanstalk.py lines 104-186): the `cStringIO` buffer
contents together with the two counters.  Writes always happen at offset
`bytes_written`, which between purges equals the buffer's length. -/
structure Reader where
  buffer : List Byte
  bytes_written : Nat
  bytes_read : Nat
deriving DecidableEq, Repr

/-- `Reader.length` property: `bytes_written - bytes_read`. -/
def Reader.len (r : Reader) : Nat := r.bytes_written - r.bytes_read

/-- Models `Reader._read_from_socket(length)` for a non-`None` `length`:
keep calling `recv` and appending until the number of freshly received
bytes (`marker`) reaches `length`.  Returns the bytes appended, the chunks
left over, and `true` on success; `false` models the raised
`TimeoutError`/`ConnectionError` (empty chunk = peer closed) or a recv that
never returns (chunks exhausted).  Bytes received before the failure were
already written to the buffer, hence they are part of the first component. -/
def readFromSocketN : List (List Byte) → Nat → (List Byte × List (List Byte) × Bool)
  | [], _ => ([], [], false)
  | c :: rest, need =>
    if c = [] then ([], rest, false)
    else if need ≤ c.length then (c, rest, true)
    else
      let res := readFromSocketN rest (need - c.length)
      (c ++ res.1, res.2.1, res.2.2)

/-- Models `Reader._read_from_socket()` with `length=None` (used by
`readline`): a single `recv`, appended to the buffer. -/
def readFromSocket1 : List (List Byte) → (List Byte × List (List Byte) × Bool)
  | [] => ([], [], false)
  | c :: rest => if c = [] then ([], rest, false) else (c, rest, true)

/-- Models `Reader.purge`: seek 0, truncate, reset both counters. -/
def Reader.purge (_ : Reader) : Reader := ⟨[], 0, 0⟩

/-- The cursor advance and conditional purge shared verbatim by
`Reader.read` (lines 149-152) and `Reader.readline` (lines 165-168):
`self.bytes_read += len(data)` followed by `self.purge()` when the read
counter has caught up with the write counter. -/
def Reader.consume (r : Reader) (data : List Byte) : Reader :=
  let r2 := { r with bytes_read := r.bytes_read + data.length }
  if r2.bytes_read = r2.bytes_written then Reader.purge r2 else r2

/-- Lines 147-154 of `Reader.read`, after the conditional socket fetch:
seek to `bytes_read`, read `length` bytes from the buffer, advance the
cursor (purging when drained), and return `data[:-2]`. -/
def Reader.readBuffered (r : Reader) (length : Nat) : List Byte × Reader :=
  let data := (r.buffer.drop r.bytes_read).take length
  (data.take (data.length - 2), Reader.consume r data)

/-- Models `Reader.read(length)` (lines 142-154).  `none` in the first
component is an exception escaping from `_read_from_socket`; the reader
state returned alongside it still contains what was appended before the
failure. -/
def Reader.read (r : Reader) (chunks : List (List Byte)) (n : Nat) :
    Option (List Byte) × Reader × List (List Byte) :=
  let length := n + 2
  let fetched :=
    if r.len < length then
      let res := readFromSocketN chunks (length - r.len)
      ({ r with buffer := r.buffer ++ res.1,
                bytes_written := r.bytes_written + res.1.length }, res.2.1, res.2.2)
    else (r, chunks, true)
  if fetched.2.2 then
    let dr := Reader.readBuffered fetched.1 length
    (some dr.1, dr.2, fetched.2.1)
  else (none, fetched.1, fetched.2.1)

/-- Models Python `BytesIO.readline` from the current position: everything
up to and including the first newline byte (10), or to the end of the
buffer if there is none. -/
def takeLine : List Byte → List Byte
  | [] => []
  | b :: bs => if b = 10 then [10] else b :: takeLine bs

/-- Models `data.endswith(SYM_CRLF)`. -/
def endsWithCRLF (l : List Byte) : Bool := SYM_CRLF.isSuffixOf l

/-- Models `Reader.readline` (lines 156-170): re-run `readline` on the
buffer, fetching one recv at a time, until the line ends with CRLF.  The
recursion is on the chunk list; running out of chunks models a recv that
blocks forever, an empty chunk models the raised `ConnectionError`. -/
def Reader.readline : Reader → List (List Byte) → Option (List Byte) × Reader × List (List Byte)
  | r, chunks =>
    let data := takeLine (r.buffer.drop r.bytes_read)
    if endsWithCRLF data then
      (some (data.take (data.length - 2)), Reader.consume r data, chunks)
    else
      match chunks with
      | [] => (none, r, [])
      | c :: rest =>
        if c = [] then (none, r, rest)
        else Reader.readline
          { r with buffer := r.buffer ++ c, bytes_written := r.bytes_written + c.length } rest

/-- The unconsumed portion of the byte stream seen by a reader: what is
buffered but not yet read, followed by every byte still to be received. -/
def streamOf (r : Reader) (chunks : List (List Byte)) : List Byte :=
  r.buffer.drop r.bytes_read ++ chunks.flatten

/-- Well-formedness of a reader: writes happen at the end of the buffer, so
the buffer length equals `bytes_written`, and the read cursor does not pass
the write cursor. -/
def Reader.wf (r : Reader) : Prop :=
  r.buffer.length = r.bytes_written ∧ r.bytes_read ≤ r.bytes_written

instance (r : Reader) : Decidable r.wf := by unfold Reader.wf; infer_instance

/-- State of `BaseParser` (lines 189-223).  Only the `_buffer` attribute
participates in the modelled behaviour (`_sock`, `socket_read_size` and
`encoding` never affect the return values of the parsing operations);
`_buffer` is `None` until `on_connect` binds a fresh `Reader`. -/
structure BaseParser where
  _buffer : Option Reader
deriving DecidableEq, Repr

/-- Models `BaseParser.can_read` (lines 209-210).  The source line is
`return self._buffer and bool(self._buffer_length)`: when `_buffer` is
`None` the `and` short-circuits and the falsy `None` is returned (modelled
as `false`); when `_buffer` is bound, Python evaluates
`self._buffer_length` — an attribute that is never assigned anywhere on
`BaseParser` — and raises `AttributeError`. -/
def BaseParser.can_read (p : BaseParser) : PyResult Bool :=
  match p._buffer with
  | none => .ok false
  | some _ => .err .attributeError

/-- Models `BaseParser.read(size)` (lines 219-223): delegate to
`Reader.read`, then raise `ConnectionError(SERVER_CLOSED_CONNECTION_ERROR)`
if the returned byte string is empty (falsy). -/
def BaseParser.read (p : BaseParser) (chunks : List (List Byte)) (size : Nat) :
    PyResult (List Byte) × BaseParser × List (List Byte) :=
  match p._buffer with
  | none => (.err .attributeError, p, chunks)
  | some r =>
    let res := Reader.read r chunks size
    match res.1 with
    | none => (.err .transport, ⟨some res.2.1⟩, res.2.2)
    | some data =>
      (if data = [] then .err .connectionClosed else .ok data, ⟨some res.2.1⟩, res.2.2)

/-- Python `str.split()` whitespace set: space, tab, newline, carriage
return, form feed, vertical tab. -/
def isPyWs (b : Byte) : Bool :=
  b = 32 || b = 9 || b = 10 || b = 13 || b = 12 || b = 11

/-- Accumulator-based core of `pySplit`. -/
def pySplitAux : List Byte → List Byte → List (List Byte)
  | [], acc => if acc = [] then [] else [acc.reverse]
  | b :: bs, acc =>
    if isPyWs b then
      if acc = [] then pySplitAux bs [] else acc.reverse :: pySplitAux bs []
    else pySplitAux bs (b :: acc)

/-- Models Python `str.split()` with no argument: split on runs of
whitespace, with no empty tokens in the result. -/
def pySplit (l : List Byte) : List (List Byte) := pySplitAux l []

/-- Models `BaseParser.read_response` (lines 212-217): read a line, raise
`ConnectionError` if it is empty, split it on whitespace, and return
`(response[0], response[1:])`; on a whitespace-only line the split yields
an empty list and `response[0]` raises `IndexError`. -/
def BaseParser.read_response (p : BaseParser) (chunks : List (List Byte)) :
    PyResult (List Byte × List (List Byte)) × BaseParser × List (List Byte) :=
  match p._buffer with
  | none => (.err .attributeError, p, chunks)
  | some r =>
    let res := Reader.readline r chunks
    match res.1 with
    | none => (.err .transport, ⟨some res.2.1⟩, res.2.2)
    | some line =>
      if line = [] then (.err .connectionClosed, ⟨some res.2.1⟩, res.2.2)
      else
        match pySplit line with
        | [] => (.err .indexError, ⟨some res.2.1⟩, res.2.2)
        | t :: ts => (.ok (t, ts), ⟨some res.2.1⟩, res.2.2)

/-- State of `Connection` (lines 226-381) restricted to what the modelled
operations read: whether a socket is currently held, the parser, and
the `retry_on_timeout` flag. -/
structure Connection where
  _sock : Bool
  parser : BaseParser
  retry_on_timeout : Bool
deriving DecidableEq, Repr

/-- Models the successful path of `Connection.connect` + `on_connect`
(lines 243-260, 302-303): a no-op when a socket is already held, otherwise
acquire a socket and bind the parser to a fresh `Reader`. -/
def Connection.connect (c : Connection) : Connection :=
  if c._sock then c
  else { c with _sock := true, parser := ⟨some ⟨[], 0, 0⟩⟩ }

/-- Models `Connection.disconnect` (lines 305-314): the parser is unbound
(`on_disconnect`) and the socket is shut down and released. -/
def Connection.disconnect (c : Connection) : Connection :=
  { c with _sock := false, parser := ⟨none⟩ }

/-- Models `Connection.can_read(timeout)` (lines 316-322): connect if no
socket is held, then `self._parser.can_read() or bool(select(...))`.  The
`select` readiness poll outcome is the `pollReady` parameter; it is only
reached if the parser call returns. -/
def Connection.can_read (c : Connection) (pollReady : Bool) : PyResult Bool :=
  let c := Connection.connect c
  match BaseParser.can_read c.parser with
  | .err e => .err e
  | .ok b => .ok (b || pollReady)

/-- Models `Connection.read_body(size)` (lines 373-381): delegate to the
parser; any exception triggers `disconnect` before propagating. -/
def Connection.read_body (c : Connection) (chunks : List (List Byte)) (size : Nat) :
    PyResult (List Byte) × Connection × List (List Byte) :=
  let res := BaseParser.read c.parser chunks size
  match res.1 with
  | .ok data => (.ok data, { c with parser := res.2.1 }, res.2.2)
  | .err e => (.err e, Connection.disconnect { c with parser := res.2.1 }, res.2.2)

/-- Models `parse_body` (lines 391-398).  `job_id` and `job_size` stand for
`results[0]` and `int(results[1])`.  The guard `job_size > 0 and not body`
compares a `str` to an `int` in Python 2, which is always `True`, so the
guard reduces to `not body`. -/
def parse_body (c : Connection) (chunks : List (List Byte)) (job_id : String) (job_size : Nat) :
    PyResult (String × List Byte) × Connection × List (List Byte) :=
  let res := Connection.read_body c chunks job_size
  match res.1 with
  | .ok body =>
    (if body = [] then .err .responseError else .ok (job_id, body), res.2.1, res.2.2)
  | .err e => (.err e, res.2.1, res.2.2)

/-- A `Connection` object as the pool tracks it: an identity (which Python
object it is) plus the process id recorded by `Connection.__init__`
(`self.pid = os.getpid()`). -/
structure PConn where
  cid : Nat
  pid : Nat
deriving DecidableEq, Repr

/-- State of `ConnectionPool` (lines 40-101).  `_available_connections` is
a Python list (append at the end, `pop()` from the end);
`_in_use_connections` is a set, modelled as a list.  `next_id` is a
modelling device handing a fresh identity to each `Connection()`
constructed by `make_connection`. -/
structure Pool where
  pid : Nat
  max_connections : Nat
  _created_connections : Nat
  _available_connections : List PConn
  _in_use_connections : List PConn
  next_id : Nat
deriving DecidableEq, Repr

/-- Models `ConnectionPool._checkpid` together with the `disconnect` and
`reset` it triggers (lines 60-73, 97-101): when the caller's process id
differs from the recorded owner, every tracked connection is
force-disconnected and all bookkeeping restarts from zero under the new
pid.  (The double-checked lock only matters for concurrent callers; for a
single caller the second check repeats the first.)  Returns the new pool
state and the list of connections that were disconnected. -/
def ConnectionPool.checkpid (p : Pool) (curpid : Nat) : Pool × List PConn :=
  if p.pid ≠ curpid then
    (⟨curpid, p.max_connections, 0, [], [], p.next_id⟩,
     p._available_connections ++ p._in_use_connections)
  else (p, [])

/-- Models `ConnectionPool.make_connection` (lines 84-88): `none` is the
raised `ConnectionError("Too many connections")` (the pool-exhausted
error); otherwise the created-connections count grows and a fresh
`Connection` recording the caller's pid is returned. -/
def ConnectionPool.make_connection (p : Pool) (curpid : Nat) :
    Option (PConn × Pool) :=
  if p.max_connections ≤ p._created_connections then none
  else some (⟨p.next_id, curpid⟩,
    { p with _created_connections := p._created_connections + 1,
             next_id := p.next_id + 1 })

/-- Models `ConnectionPool.get_connection` (lines 75-82): run the pid
check, pop the last available connection (`IndexError` falls through to
`make_connection`), and add the result to the in-use set.  The first
component is `none` when `make_connection` raised; the second component is
the list of connections disconnected by the pid check. -/
def ConnectionPool.get_connection (p : Pool) (curpid : Nat) :
    Option (PConn × Pool) × List PConn :=
  let chk := ConnectionPool.checkpid p curpid
  let p := chk.1
  match p._available_connections.getLast? with
  | some c =>
    (some (c, { p with _available_connections := p._available_connections.dropLast,
                       _in_use_connections := p._in_use_connections ++ [c] }), chk.2)
  | none =>
    match ConnectionPool.make_connection p curpid with
    | some cp =>
      (some (cp.1, { cp.2 with _in_use_connections := cp.2._in_use_connections ++ [cp.1] }),
       chk.2)
    | none => (none, chk.2)

/-- Models `ConnectionPool.release` (lines 90-95): run the pid check, drop
the connection silently if it belongs to another process's generation,
otherwise move it from in-use back to available.  `set.remove` raises
`KeyError` when the connection is not in the in-use set; no state is
mutated in that case. -/
def ConnectionPool.release (p : Pool) (curpid : Nat) (c : PConn) : Pool :=
  let p := (ConnectionPool.checkpid p curpid).1
  if c.pid ≠ p.pid then p
  else if c ∈ p._in_use_connections then
    { p with _in_use_connections := p._in_use_connections.erase c,
             _available_connections := p._available_connections ++ [c] }
  else p

/-- `Beanstalk.RESPONSE_CALLBACKS` (line 402): the command names carrying a
post-processing callback (`reserve ↦ parse_body`). -/
def Beanstalk.RESPONSE_CALLBACKS : List String := ["reserve"]

/-- `Beanstalk.EXPECTED_OK` (lines 405-410). -/
def Beanstalk.EXPECTED_OK : List (String × List String) :=
  [("reserve", ["RESERVED"]), ("delete", ["DELETED"]), ("put", ["INSERTED"])]

/-- `Beanstalk.EXPECTED_ERR` (lines 411-415). -/
def Beanstalk.EXPECTED_ERR : List (String × List String) :=
  [("reserve", ["DEADLINE_SOON", "TIMED_OUT"]),
   ("delete", ["DELETED", "NOT_FOUND"]),
   ("put", ["JOB_TOO_BIG", "BURIED", "DRAINING"])]

/-- Python `dict[key]` lookup over an association list (the dicts here are
literal tables). -/
def dictGet : List (String × List String) → String → Option (List String)
  | [], _ => none
  | kv :: rest, key => if kv.1 = key then some kv.2 else dictGet rest key

/-- The four ways `Beanstalk.parse_response` can leave, plus the `KeyError`
a dict lookup would raise on a command absent from the tables. -/
inductive Classified where
  | callbackRun (cmd status : String) (results : List String)
  | returned (status : String) (results : List String)
  | responseError (cmd status : String) (results : List String)
  | invalidResponse (cmd status : String) (results : List String)
  | keyError
deriving DecidableEq, Repr

/-- Models `Beanstalk.parse_response` (lines 463-474) after the response
line has been read and split into `status` and `results`: statuses in
`EXPECTED_OK[command]` return normally (dispatching to
`RESPONSE_CALLBACKS[command]` when one is registered), otherwise statuses
in `EXPECTED_ERR[command]` raise `ResponseError(command, status, results)`,
otherwise `InvalidResponse(command, status, results)` is raised. -/
def Beanstalk.parse_response (command_name status : String) (results : List String) :
    Classified :=
  match dictGet Beanstalk.EXPECTED_OK command_name with
  | none => .keyError
  | some okSet =>
    if status ∈ okSet then
      if command_name ∈ Beanstalk.RESPONSE_CALLBACKS then
        .callbackRun command_name status results
      else .returned status results
    else
      match dictGet Beanstalk.EXPECTED_ERR command_name with
      | none => .keyError
      | some errSet =>
        if status ∈ errSet then .responseError command_name status results
        else .invalidResponse command_name status results

/-- Outcome of one `send_command` + `parse_response` attempt inside
`execute_command`: normal return, or one of the exception classes the
exchange can raise (`TimeoutError`, `ConnectionError`, `ResponseError`,
`InvalidResponse`). -/
inductive Outcome where
  | success
  | timeoutErr
  | connErr
  | serverErr
  | invalidResp
deriving DecidableEq, Repr

/-- What `execute_command` itself does with an attempt outcome that is not
retried: a normal return, or the same exception propagating. -/
inductive ExecResult where
  | ok
  | raisedTimeout
  | raisedConn
  | raisedServer
  | raisedInvalid
  | raisedPool
deriving DecidableEq, Repr

/-- An attempt outcome propagated unchanged through `execute_command`. -/
def outcomeResult : Outcome → ExecResult
  | .success => .ok
  | .timeoutErr => .raisedTimeout
  | .connErr => .raisedConn
  | .serverErr => .raisedServer
  | .invalidResp => .raisedInvalid

/-- Observable result of one `execute_command` invocation: what it
returned or raised, how many send/parse attempts it made, the final pool
state, the borrowed connection (when lending succeeded), and whether
`connection.disconnect()` ran at the `execute_command` level. -/
structure ExecOut where
  result : ExecResult
  attempts : Nat
  pool : Pool
  conn : Option PConn
  disconnected : Bool
deriving DecidableEq, Repr

/-- Models `Beanstalk.execute_command` (lines 447-461).  The send/parse
exchange is abstracted by its outcome: `first` is what the first
`send_command`+`parse_response` does, `second` what a retry would do.  The
source catches only `(ConnectionError, TimeoutError)`: on those it
disconnects the borrowed connection, re-raises immediately when the error
is a `TimeoutError` and `retry_on_timeout` is unset, and otherwise resends
exactly once, propagating whatever the retry produces.  `ResponseError` /
`InvalidResponse` propagate without a retry.  The `finally` block releases
the connection back to the pool on every path. -/
def Beanstalk.execute_command (p : Pool) (curpid : Nat) (retry_on_timeout : Bool)
    (first second : Outcome) : ExecOut :=
  match (ConnectionPool.get_connection p curpid).1 with
  | none => ⟨.raisedPool, 0, (ConnectionPool.checkpid p curpid).1, none, false⟩
  | some (c, p1) =>
    match first with
    | .timeoutErr =>
      if retry_on_timeout then
        ⟨outcomeResult second, 2, ConnectionPool.release p1 curpid c, some c, true⟩
      else
        ⟨.raisedTimeout, 1, ConnectionPool.release p1 curpid c, some c, true⟩
    | .connErr =>
      ⟨outcomeResult second, 2, ConnectionPool.release p1 curpid c, some c, true⟩
    | o => ⟨outcomeResult o, 1, ConnectionPool.release p1 curpid c, some c, false⟩

/-- One profiled operation on a fresh reader, with the socket receives it
may consume. -/
inductive ROp where
  | read (chunks : List (List Byte)) (n : Nat)
  | readline (chunks : List (List Byte))
  | purge
deriving Repr

/-- The reader state left behind by one operation (exception or not). -/
def stepR (r : Reader) : ROp → Reader
  | .read chunks n => (Reader.read r chunks n).2.1
  | .readline chunks => (Reader.readline r chunks).2.1
  | .purge => Reader.purge r

/-- A fresh reader (as built by `BaseParser.on_connect`) run through a
sequence of operations. -/
def runOps (ops : List ROp) : Reader :=
  List.foldl stepR ⟨[], 0, 0⟩ ops

/-- One pool operation performed by the owning process itself. -/
inductive POp where
  | lend
  | release (c : PConn)
deriving Repr

/-- The pool state left behind by one same-process operation; a lend that
raises leaves the bookkeeping untouched. -/
def stepP (p : Pool) : POp → Pool
  | .lend =>
    match (ConnectionPool.get_connection p p.pid).1 with
    | some cp => cp.2
    | none => p
  | .release c => ConnectionPool.release p p.pid c

theorem readFromSocketN_spec :
    ∀ (chunks : List (List Byte)) (need : Nat),
      (∀ c ∈ chunks, c ≠ []) → 1 ≤ need → need ≤ chunks.flatten.length →
      (readFromSocketN chunks need).2.2 = true ∧
      need ≤ (readFromSocketN chunks need).1.length ∧
      (readFromSocketN chunks need).1 ++ (readFromSocketN chunks need).2.1.flatten
        = chunks.flatten
  | [], need, _, h1, hlen => by
    simp only [List.flatten_nil, List.length_nil] at hlen
    omega
  | c :: rest, need, hne, h1, hlen => by
    have hc : c ≠ [] := hne c (List.mem_cons_self _ _)
    have hflat : (c :: rest).flatten.length = c.length + rest.flatten.length := by
      simp [List.flatten_cons]
    by_cases hle : need ≤ c.length
    · simp [readFromSocketN, hc, hle]
    · have hcpos : 0 < c.length := List.length_pos.mpr hc
      have hrec := readFromSocketN_spec rest (need - c.length)
        (fun x hx => hne x (List.mem_cons_of_mem _ hx)) (by omega) (by omega)
      simp only [readFromSocketN, if_neg hc, if_neg hle]
      refine ⟨hrec.1, ?_, ?_⟩
      · simp only [List.length_append]
        omega
      · simp only [List.append_assoc, hrec.2.2, List.flatten_cons]

theorem Reader.consume_stream (r : Reader) (rest : List (List Byte)) (k : Nat)
    (hb : r.buffer.length = r.bytes_written) (hbr : r.bytes_read ≤ r.bytes_written)
    (hk : k ≤ r.bytes_written - r.bytes_read) :
    streamOf (Reader.consume r ((r.buffer.drop r.bytes_read).take k)) rest
      = (streamOf r rest).drop k ∧
    Reader.wf (Reader.consume r ((r.buffer.drop r.bytes_read).take k)) := by
  have hU : (r.buffer.drop r.bytes_read).length = r.bytes_written - r.bytes_read := by
    rw [List.length_drop, hb]
  have hdl : ((r.buffer.drop r.bytes_read).take k).length = k := by
    rw [List.length_take]
    omega
  have hdropU : (streamOf r rest).drop k
      = r.buffer.drop (r.bytes_read + k) ++ rest.flatten := by
    rw [streamOf, List.drop_append_of_le_length (by omega), List.drop_drop]
  unfold Reader.consume
  simp only [hdl]
  by_cases hp : r.bytes_read + k = r.bytes_written
  · have : ({ r with bytes_read := r.bytes_read + k } : Reader).bytes_read
        = ({ r with bytes_read := r.bytes_read + k } : Reader).bytes_written := hp
    rw [if_pos this]
    refine ⟨?_, by simp [Reader.purge, Reader.wf]⟩
    rw [hdropU]
    have : r.buffer.drop (r.bytes_read + k) = [] :=
      List.drop_eq_nil_of_le (by omega)
    simp [streamOf, Reader.purge, this]
  · have : ¬ (({ r with bytes_read := r.bytes_read + k } : Reader).bytes_read
        = ({ r with bytes_read := r.bytes_read + k } : Reader).bytes_written) := hp
    rw [if_neg this]
    refine ⟨by rw [hdropU]; rfl, hb, ?_⟩
    show r.bytes_read + k ≤ r.bytes_written
    omega

theorem Reader.readBuffered_spec (r : Reader) (rest : List (List Byte)) (n : Nat)
    (hb : r.buffer.length = r.bytes_written) (hbr : r.bytes_read ≤ r.bytes_written)
    (hav : n + 2 ≤ r.bytes_written - r.bytes_read) :
    (Reader.readBuffered r (n + 2)).1 = (streamOf r rest).take n ∧
    streamOf (Reader.readBuffered r (n + 2)).2 rest = (streamOf r rest).drop (n + 2) ∧
    Reader.wf (Reader.readBuffered r (n + 2)).2 := by
  have hU : (r.buffer.drop r.bytes_read).length = r.bytes_written - r.bytes_read := by
    rw [List.length_drop, hb]
  have hdl : ((r.buffer.drop r.bytes_read).take (n + 2)).length = n + 2 := by
    rw [List.length_take]
    omega
  have hcs := Reader.consume_stream r rest (n + 2) hb hbr hav
  refine ⟨?_, hcs.1, hcs.2⟩
  show (((r.buffer.drop r.bytes_read).take (n + 2)).take
      (((r.buffer.drop r.bytes_read).take (n + 2)).length - 2)) = _
  rw [hdl, Nat.add_sub_cancel, List.take_take, Nat.min_eq_left (by omega), streamOf,
    List.take_append_of_le_length (by omega)]

theorem Reader.read_spec (r : Reader) (chunks : List (List Byte)) (n : Nat)
    (hwf : Reader.wf r) (hne : ∀ c ∈ chunks, c ≠ [])
    (hlen : n + 2 ≤ (streamOf r chunks).length) :
    (Reader.read r chunks n).1 = some ((streamOf r chunks).take n) ∧
    streamOf (Reader.read r chunks n).2.1 (Reader.read r chunks n).2.2 =
      (streamOf r chunks).drop (n + 2) ∧
    Reader.wf (Reader.read r chunks n).2.1 := by
  obtain ⟨hb, hbr⟩ := hwf
  have hU : (r.buffer.drop r.bytes_read).length = r.bytes_written - r.bytes_read := by
    rw [List.length_drop, hb]
  have hslen : (streamOf r chunks).length
      = (r.bytes_written - r.bytes_read) + chunks.flatten.length := by
    rw [streamOf, List.length_append, hU]
  by_cases hf : r.len < n + 2
  · -- socket fetch needed
    have hneed1 : 1 ≤ n + 2 - r.len := by omega
    have hneedlen : n + 2 - r.len ≤ chunks.flatten.length := by
      unfold Reader.len at *
      omega
    obtain ⟨hok, hge, hjoin⟩ := readFromSocketN_spec chunks (n + 2 - r.len) hne hneed1 hneedlen
    have hread : Reader.read r chunks n =
        (some (Reader.readBuffered
          { r with buffer := r.buffer ++ (readFromSocketN chunks (n + 2 - r.len)).1,
                   bytes_written := r.bytes_written
                     + (readFromSocketN chunks (n + 2 - r.len)).1.length } (n + 2)).1,
         (Reader.readBuffered
          { r with buffer := r.buffer ++ (readFromSocketN chunks (n + 2 - r.len)).1,
                   bytes_written := r.bytes_written
                     + (readFromSocketN chunks (n + 2 - r.len)).1.length } (n + 2)).2,
         (readFromSocketN chunks (n + 2 - r.len)).2.1) := by
      rw [Reader.read]
      simp only [if_pos hf, hok]
      simp
    set a := (readFromSocketN chunks (n + 2 - r.len)).1 with ha
    set rest := (readFromSocketN chunks (n + 2 - r.len)).2.1 with hrest
    set r1 : Reader :=
      { r with buffer := r.buffer ++ a, bytes_written := r.bytes_written + a.length } with hr1
    have hb1 : r1.buffer.length = r1.bytes_written := by
      simp [hr1, List.length_append, hb]
    have hbr1 : r1.bytes_read ≤ r1.bytes_written := by
      simp [hr1]
      omega
    have hstream1 : streamOf r1 rest = streamOf r chunks := by
      simp only [streamOf, hr1]
      rw [List.drop_append_of_le_length (by omega), List.append_assoc, hjoin]
    have hav1 : n + 2 ≤ r1.bytes_written - r1.bytes_read := by
      simp only [hr1]
      unfold Reader.len at hf hge
      omega
    obtain ⟨ho, hs, hw⟩ := Reader.readBuffered_spec r1 rest n hb1 hbr1 hav1
    rw [hread]
    exact ⟨by rw [ho, hstream1], by rw [hs, hstream1], hw⟩
  · -- enough bytes already buffered
    have hread : Reader.read r chunks n =
        (some (Reader.readBuffered r (n + 2)).1,
         (Reader.readBuffered r (n + 2)).2, chunks) := by
      rw [Reader.read]
      simp only [if_neg hf]
      simp
    have hav : n + 2 ≤ r.bytes_written - r.bytes_read := by
      unfold Reader.len at hf
      omega
    obtain ⟨ho, hs, hw⟩ := Reader.readBuffered_spec r chunks n hb hbr hav
    rw [hread]
    exact ⟨by rw [ho], by rw [hs], hw⟩

theorem takeLine_length_le : ∀ l : List Byte, (takeLine l).length ≤ l.length
  | [] => Nat.le_refl 0
  | b :: bs => by
    rw [takeLine]
    by_cases hb : b = 10
    · simp [hb]
    · simpa [hb] using takeLine_length_le bs

/-- The invariant maintained by every reader operation: the write counter
mirrors the buffer length, the read counter never passes it, and whenever
the two counters meet the buffer has just been purged. -/
def ReaderInv (r : Reader) : Prop :=
  r.buffer.length = r.bytes_written ∧ r.bytes_read ≤ r.bytes_written ∧
  (r.bytes_read = r.bytes_written → r.bytes_written = 0 ∧ r.buffer = [])

theorem readerInv_init : ReaderInv ⟨[], 0, 0⟩ :=
  ⟨rfl, Nat.le_refl 0, fun _ => ⟨rfl, rfl⟩⟩

theorem extend_inv (r : Reader) (a : List Byte) (h : ReaderInv r) :
    ReaderInv { r with buffer := r.buffer ++ a,
                       bytes_written := r.bytes_written + a.length } := by
  obtain ⟨h1, h2, h3⟩ := h
  refine ⟨by simp [List.length_append, h1],
    by show r.bytes_read ≤ r.bytes_written + a.length; omega, ?_⟩
  intro heq
  have ha : a.length = 0 := by
    have : r.bytes_read = r.bytes_written + a.length := heq
    omega
  have heq2 : r.bytes_read = r.bytes_written := by
    have : r.bytes_read = r.bytes_written + a.length := heq
    omega
  obtain ⟨hw0, hbuf⟩ := h3 heq2
  refine ⟨by show r.bytes_written + a.length = 0; omega, ?_⟩
  show r.buffer ++ a = []
  rw [hbuf, List.length_eq_zero.mp ha]
  rfl

theorem consume_inv (r : Reader) (data : List Byte)
    (h1 : r.buffer.length = r.bytes_written)
    (h2 : r.bytes_read + data.length ≤ r.bytes_written) :
    ReaderInv (Reader.consume r data) := by
  unfold Reader.consume
  by_cases hp : r.bytes_read + data.length = r.bytes_written
  · have : ({ r with bytes_read := r.bytes_read + data.length } : Reader).bytes_read
        = ({ r with bytes_read := r.bytes_read + data.length } : Reader).bytes_written := hp
    rw [if_pos this]
    exact readerInv_init
  · have : ¬ (({ r with bytes_read := r.bytes_read + data.length } : Reader).bytes_read
        = ({ r with bytes_read := r.bytes_read + data.length } : Reader).bytes_written) := hp
    rw [if_neg this]
    exact ⟨h1, h2, fun heq => absurd heq hp⟩

theorem readBuffered_inv (r : Reader) (length : Nat) (h : ReaderInv r) :
    ReaderInv (Reader.readBuffered r length).2 := by
  obtain ⟨h1, h2, _⟩ := h
  refine consume_inv r _ h1 ?_
  have hle : ((r.buffer.drop r.bytes_read).take length).length
      ≤ r.bytes_written - r.bytes_read := by
    rw [List.length_take, List.length_drop, h1]
    omega
  omega

theorem read_inv (r : Reader) (chunks : List (List Byte)) (n : Nat) (h : ReaderInv r) :
    ReaderInv (Reader.read r chunks n).2.1 := by
  rw [Reader.read]
  by_cases hf : r.len < n + 2
  · simp only [if_pos hf]
    have hr1 := extend_inv r (readFromSocketN chunks (n + 2 - r.len)).1 h
    by_cases hok : (readFromSocketN chunks (n + 2 - r.len)).2.2 = true
    · simp only [hok]
      simpa using readBuffered_inv _ (n + 2) hr1
    · simp only [Bool.not_eq_true] at hok
      simp only [hok]
      simpa using hr1
  · simp only [if_neg hf]
    simpa using readBuffered_inv r (n + 2) h

theorem readline_inv (chunks : List (List Byte)) :
    ∀ r : Reader, ReaderInv r → ReaderInv (Reader.readline r chunks).2.1 := by
  induction chunks with
  | nil =>
    intro r h
    rw [Reader.readline]
    by_cases hcrlf : endsWithCRLF (takeLine (r.buffer.drop r.bytes_read))
    · simp only [if_pos hcrlf]
      refine consume_inv r _ h.1 ?_
      have ht := takeLine_length_le (r.buffer.drop r.bytes_read)
      rw [List.length_drop, h.1] at ht
      have := h.2.1
      omega
    · simpa only [if_neg hcrlf] using h
  | cons c rest ih =>
    intro r h
    rw [Reader.readline]
    by_cases hcrlf : endsWithCRLF (takeLine (r.buffer.drop r.bytes_read))
    · simp only [if_pos hcrlf]
      refine consume_inv r _ h.1 ?_
      have ht := takeLine_length_le (r.buffer.drop r.bytes_read)
      rw [List.length_drop, h.1] at ht
      have := h.2.1
      omega
    · simp only [if_neg hcrlf]
      by_cases hc : c = []
      · simpa [hc] using h
      · simpa [hc] using ih _ (extend_inv r c h)

theorem stepR_inv (r : Reader) (op : ROp) (h : ReaderInv r) : ReaderInv (stepR r op) := by
  cases op with
  | read chunks n => exact read_inv r chunks n h
  | readline chunks => exact readline_inv chunks r h
  | purge => exact readerInv_init

theorem runOps_inv (ops : List ROp) : ReaderInv (runOps ops) := by
  suffices h : ∀ r, ReaderInv r → ReaderInv (List.foldl stepR r ops) from
    h _ readerInv_init
  induction ops with
  | nil => intro r h; exact h
  | cons op rest ih => intro r h; exact ih _ (stepR_inv r op h)

/-- C5: for every `n ≥ 0` and every partition of the incoming byte stream
into non-empty receive chunks, `Reader.read n` returns exactly the first
`n` unconsumed bytes of the stream, consumes and discards the 2-byte
terminator that follows them (the remaining stream is the old one with
`n + 2` bytes dropped), blocking on further receives until at least
`n + 2` bytes are buffered. -/
theorem reader_read_exact (r : Reader) (chunks : List (List Byte)) (n : Nat)
    (hwf : Reader.wf r) (hne : ∀ c ∈ chunks, c ≠ [])
    (hlen : n + 2 ≤ (streamOf r chunks).length) :
    (Reader.read r chunks n).1 = some ((streamOf r chunks).take n) ∧
    streamOf (Reader.read r chunks n).2.1 (Reader.read r chunks n).2.2 =
      (streamOf r chunks).drop (n + 2) ∧
    Reader.wf (Reader.read r chunks n).2.1 :=
  Reader.read_spec r chunks n hwf hne hlen

theorem reader_read_exact_witness :
    Reader.wf ⟨[], 0, 0⟩ ∧ (∀ c ∈ [[1, 2], [3, 13, 10]], c ≠ ([] : List Byte)) ∧
    3 + 2 ≤ (streamOf ⟨[], 0, 0⟩ [[1, 2], [3, 13, 10]]).length ∧
    (Reader.read ⟨[], 0, 0⟩ [[1, 2], [3, 13, 10]] 3).1
      = some ((streamOf ⟨[], 0, 0⟩ [[1, 2], [3, 13, 10]]).take 3) :=
  ⟨by decide, by decide, by decide,
   (reader_read_exact ⟨[], 0, 0⟩ [[1, 2], [3, 13, 10]] 3
     (by decide) (by decide) (by decide)).1⟩

/-- C6: after every sequence of read/readline/purge operations on a fresh
reader, `bytes_read ≤ bytes_written` holds, and the buffer is reclaimed
(both counters zero and storage truncated) exactly when the two counters
are equal. -/
theorem reader_counter_invariant (ops : List ROp) :
    (runOps ops).bytes_read ≤ (runOps ops).bytes_written ∧
    ((runOps ops).bytes_read = (runOps ops).bytes_written ↔
      (runOps ops).bytes_read = 0 ∧ (runOps ops).bytes_written = 0 ∧
        (runOps ops).buffer = []) := by
  obtain ⟨h1, h2, h3⟩ := runOps_inv ops
  refine ⟨h2, fun heq => ?_, fun hz => ?_⟩
  · obtain ⟨hw, hb⟩ := h3 heq
    exact ⟨by omega, hw, hb⟩
  · obtain ⟨hr0, hw0, _⟩ := hz
    omega

/-- C9: reading a declared body of length zero always fails.  On a
well-formed zero-length body frame (the stream starts with the bare CRLF
terminator) `Reader.read 0` returns the empty byte string, so
`BaseParser.read` raises `ConnectionError(SERVER_CLOSED_CONNECTION_ERROR)`,
and through `Connection.read_body` the `parse_body` callback used by
`reserve` propagates that connection error after force-disconnecting the
connection. -/
theorem read_zero_length_body_fails (c : Connection) (r : Reader)
    (chunks : List (List Byte)) (job_id : String)
    (hbuf : c.parser = ⟨some r⟩)
    (hwf : Reader.wf r) (hne : ∀ ch ∈ chunks, ch ≠ [])
    (_hframe : (streamOf r chunks).take 2 = SYM_CRLF)
    (hlen : 2 ≤ (streamOf r chunks).length) :
    (Reader.read r chunks 0).1 = some [] ∧
    (BaseParser.read c.parser chunks 0).1 = .err .connectionClosed ∧
    (parse_body c chunks job_id 0).1 = .err .connectionClosed ∧
    (parse_body c chunks job_id 0).2.1._sock = false := by
  have hsp := Reader.read_spec r chunks 0 hwf hne hlen
  have ho : (Reader.read r chunks 0).1 = some [] := by
    rw [hsp.1]
    simp
  have hpr : (BaseParser.read c.parser chunks 0).1 = .err .connectionClosed := by
    rw [hbuf]
    simp [BaseParser.read, ho]
  have hrb1 : (Connection.read_body c chunks 0).1 = .err .connectionClosed := by
    simp [Connection.read_body, hpr]
  have hrb2 : (Connection.read_body c chunks 0).2.1._sock = false := by
    simp [Connection.read_body, hpr, Connection.disconnect]
  refine ⟨ho, hpr, ?_, ?_⟩
  · simp [parse_body, hrb1]
  · simp [parse_body, hrb1, hrb2]

theorem read_zero_length_body_fails_witness :
    (⟨true, ⟨some ⟨[13, 10], 2, 0⟩⟩, false⟩ : Connection).parser
      = ⟨some ⟨[13, 10], 2, 0⟩⟩ ∧
    Reader.wf ⟨[13, 10], 2, 0⟩ ∧
    (streamOf ⟨[13, 10], 2, 0⟩ []).take 2 = SYM_CRLF ∧
    (parse_body ⟨true, ⟨some ⟨[13, 10], 2, 0⟩⟩, false⟩ [] "1" 0).1
      = .err .connectionClosed ∧
    (parse_body ⟨true, ⟨some ⟨[13, 10], 2, 0⟩⟩, false⟩ [] "1" 0).2.1._sock = false :=
  ⟨rfl, by decide, by decide,
   (read_zero_length_body_fails ⟨true, ⟨some ⟨[13, 10], 2, 0⟩⟩, false⟩ ⟨[13, 10], 2, 0⟩
     [] "1" rfl (by decide) (by decide) (by decide) (by decide)).2.2.1,
   (read_zero_length_body_fails ⟨true, ⟨some ⟨[13, 10], 2, 0⟩⟩, false⟩ ⟨[13, 10], 2, 0⟩
     [] "1" rfl (by decide) (by decide) (by decide) (by decide)).2.2.2⟩

/-- C10: `BaseParser.read_response` raises the server-closed
`ConnectionError` exactly on an entirely empty line; a non-empty line of
pure whitespace makes the whitespace split empty and the `response[0]`
access raise `IndexError` (neither `ConnectionError` nor
`InvalidResponse`); a line with at least one token yields the first token
as status and the rest as arguments. -/
theorem read_response_partiality :
    (BaseParser.read_response ⟨some ⟨[13, 10], 2, 0⟩⟩ []).1 = .err .connectionClosed ∧
    (BaseParser.read_response ⟨some ⟨[32, 32, 32, 13, 10], 5, 0⟩⟩ []).1
      = .err .indexError ∧
    (∀ (r r' : Reader) (chunks rest : List (List Byte)) (line t : List Byte)
        (ts : List (List Byte)),
      Reader.readline r chunks = (some line, r', rest) →
      pySplit line = t :: ts →
      BaseParser.read_response ⟨some r⟩ chunks = (.ok (t, ts), ⟨some r'⟩, rest)) ∧
    (∀ (r r' : Reader) (chunks rest : List (List Byte)) (line : List Byte),
      Reader.readline r chunks = (some line, r', rest) → line ≠ [] →
      (BaseParser.read_response ⟨some r⟩ chunks).1 ≠ .err .connectionClosed) := by
  refine ⟨by decide, by decide, ?_, ?_⟩
  · intro r r' chunks rest line t ts hrl hsp
    have hne : line ≠ [] := by
      intro h
      rw [h] at hsp
      simp [pySplit, pySplitAux] at hsp
    simp [BaseParser.read_response, hrl, hne, hsp]
  · intro r r' chunks rest line hrl hne
    simp only [BaseParser.read_response, hrl]
    cases hsp : pySplit line with
    | nil => simp [hne, hsp]
    | cons t ts => simp [hne, hsp]

theorem read_response_partiality_witness :
    Reader.readline ⟨[82, 69, 83, 69, 82, 86, 69, 68, 32, 49, 13, 10], 12, 0⟩ []
      = (some [82, 69, 83, 69, 82, 86, 69, 68, 32, 49], ⟨[], 0, 0⟩, []) ∧
    pySplit [82, 69, 83, 69, 82, 86, 69, 68, 32, 49]
      = [[82, 69, 83, 69, 82, 86, 69, 68], [49]] ∧
    BaseParser.read_response ⟨some ⟨[82, 69, 83, 69, 82, 86, 69, 68, 32, 49, 13, 10], 12, 0⟩⟩ []
      = (.ok ([82, 69, 83, 69, 82, 86, 69, 68], [[49]]), ⟨some ⟨[], 0, 0⟩⟩, []) :=
  ⟨by decide, by decide,
   (read_response_partiality.2.2.1 ⟨[82, 69, 83, 69, 82, 86, 69, 68, 32, 49, 13, 10], 12, 0⟩
     ⟨[], 0, 0⟩ [] [] [82, 69, 83, 69, 82, 86, 69, 68, 32, 49]
     [82, 69, 83, 69, 82, 86, 69, 68] [[49]] (by decide) (by decide))⟩

/-- C1 counterexample: for the `delete` command the status `DELETED` sits
in the recognized-error table `EXPECTED_ERR` as well as in `EXPECTED_OK`,
yet `parse_response` returns normally instead of raising
`ResponseError` — so the claimed three-way partition (every status in the
error set raises `ResponseError`) is false at this input. -/
theorem parse_response_deleted_both_sets :
    dictGet Beanstalk.EXPECTED_ERR "delete" = some ["DELETED", "NOT_FOUND"] ∧
    "DELETED" ∈ ["DELETED", "NOT_FOUND"] ∧
    dictGet Beanstalk.EXPECTED_OK "delete" = some ["DELETED"] ∧
    Beanstalk.parse_response "delete" "DELETED" ["1"]
      = Classified.returned "DELETED" ["1"] := by
  refine ⟨rfl, by decide, rfl, rfl⟩

/-- C1 (amended): `parse_response` classifies in order — a status in the
command's success set returns normally (dispatching the registered
callback when one exists), even if it also sits in the error set; a status
in the error set but not the success set raises
`ResponseError(command, status, results)`; a status in neither raises
`InvalidResponse(command, status, results)`. -/
theorem parse_response_classification (cmd status : String)
    (results okSet errSet : List String)
    (hok : dictGet Beanstalk.EXPECTED_OK cmd = some okSet)
    (herr : dictGet Beanstalk.EXPECTED_ERR cmd = some errSet) :
    (status ∈ okSet →
      Beanstalk.parse_response cmd status results =
        if cmd ∈ Beanstalk.RESPONSE_CALLBACKS then
          Classified.callbackRun cmd status results
        else Classified.returned status results) ∧
    (status ∉ okSet → status ∈ errSet →
      Beanstalk.parse_response cmd status results
        = .responseError cmd status results) ∧
    (status ∉ okSet → status ∉ errSet →
      Beanstalk.parse_response cmd status results
        = .invalidResponse cmd status results) := by
  refine ⟨fun hs => ?_, fun hs he => ?_, fun hs he => ?_⟩
  · simp [Beanstalk.parse_response, hok, hs]
  · simp [Beanstalk.parse_response, hok, herr, hs, he]
  · simp [Beanstalk.parse_response, hok, herr, hs, he]

theorem parse_response_classification_witness :
    dictGet Beanstalk.EXPECTED_OK "delete" = some ["DELETED"] ∧
    dictGet Beanstalk.EXPECTED_ERR "delete" = some ["DELETED", "NOT_FOUND"] ∧
    "NOT_FOUND" ∉ ["DELETED"] ∧ "NOT_FOUND" ∈ ["DELETED", "NOT_FOUND"] ∧
    Beanstalk.parse_response "delete" "NOT_FOUND" []
      = .responseError "delete" "NOT_FOUND" [] :=
  ⟨rfl, rfl, by decide, by decide,
   (parse_response_classification "delete" "NOT_FOUND" [] ["DELETED"]
     ["DELETED", "NOT_FOUND"] rfl rfl).2.1 (by decide) (by decide)⟩

/-- C3: on every connected connection (and on a fresh one, which
`can_read` connects first), `Connection.can_read` raises `AttributeError`,
because `BaseParser.can_read` evaluates the never-assigned attribute
`self._buffer_length` whenever the parser's buffer is bound — it never
returns a boolean on a connected socket. -/
theorem can_read_raises_attribute_error (c : Connection) (pollReady : Bool)
    (h : c._sock = true → c.parser._buffer.isSome) :
    Connection.can_read c pollReady = .err .attributeError := by
  unfold Connection.can_read Connection.connect
  by_cases hs : c._sock
  · rw [if_pos hs]
    have hb := h hs
    cases hbuf : c.parser._buffer with
    | none => rw [hbuf] at hb; simp at hb
    | some r => simp [BaseParser.can_read, hbuf]
  · rw [if_neg hs]
    simp [BaseParser.can_read]

theorem can_read_raises_attribute_error_witness :
    ((⟨true, ⟨some ⟨[], 0, 0⟩⟩, false⟩ : Connection)._sock = true ∧
      (⟨true, ⟨some ⟨[], 0, 0⟩⟩, false⟩ : Connection).parser._buffer.isSome) ∧
    Connection.can_read ⟨true, ⟨some ⟨[], 0, 0⟩⟩, false⟩ false
      = .err .attributeError :=
  ⟨⟨rfl, by decide⟩,
   can_read_raises_attribute_error ⟨true, ⟨some ⟨[], 0, 0⟩⟩, false⟩ false
     (fun _ => by decide)⟩

theorem stepP_bound (q : Pool) (op : POp)
    (h : q._created_connections ≤ q.max_connections) :
    (stepP q op)._created_connections ≤ (stepP q op).max_connections ∧
    (stepP q op).max_connections = q.max_connections := by
  cases op with
  | lend =>
    unfold stepP ConnectionPool.get_connection ConnectionPool.checkpid
    rw [if_neg (by simp)]
    cases hLast : q._available_connections.getLast? with
    | some c => simp [hLast, h]
    | none =>
      unfold ConnectionPool.make_connection
      by_cases hm : q.max_connections ≤ q._created_connections
      · simp [hLast, hm, h]
      · simp [hLast, hm]
        omega
  | release c =>
    unfold stepP ConnectionPool.release ConnectionPool.checkpid
    rw [if_neg (by simp)]
    by_cases h1 : c.pid ≠ q.pid
    · simp [h1, h]
    · by_cases h2 : c ∈ q._in_use_connections
      · simp [h1, h2, h]
      · simp [h1, h2, h]

theorem foldl_stepP_bound (ops : List POp) :
    ∀ q : Pool, q._created_connections ≤ q.max_connections →
    (List.foldl stepP q ops)._created_connections ≤ q.max_connections := by
  induction ops with
  | nil => intro q h; simpa using h
  | cons op rest ih =>
    intro q h
    have hb := stepP_bound q op h
    have hrec := ih (stepP q op) hb.1
    rw [hb.2] at hrec
    simpa using hrec

/-- C7: `get_connection` never raises the pool-exhausted error while the
created-connections count is strictly below `max_connections`; it always
raises it when the count equals `max_connections` and the available list
is empty (same-process call); and over every same-process sequence of
lend/release operations the created count never exceeds
`max_connections`. -/
theorem pool_exhaustion (p : Pool) (curpid : Nat) :
    (p._created_connections < p.max_connections →
      (ConnectionPool.get_connection p curpid).1 ≠ none) ∧
    (curpid = p.pid → p._created_connections = p.max_connections →
      p._available_connections = [] →
      (ConnectionPool.get_connection p curpid).1 = none) ∧
    (∀ (pid0 max0 n0 : Nat) (ops : List POp),
      (List.foldl stepP ⟨pid0, max0, 0, [], [], n0⟩ ops)._created_connections ≤ max0) := by
  refine ⟨fun hlt => ?_, fun hpid hcr hav => ?_, fun pid0 max0 n0 ops => ?_⟩
  · unfold ConnectionPool.get_connection ConnectionPool.checkpid
    by_cases hp : p.pid ≠ curpid
    · rw [if_pos hp]
      simp only [List.getLast?_nil]
      unfold ConnectionPool.make_connection
      rw [if_neg (by simp; omega)]
      simp
    · rw [if_neg hp]
      cases hLast : p._available_connections.getLast? with
      | some c => simp [hLast]
      | none =>
        simp only [hLast]
        unfold ConnectionPool.make_connection
        rw [if_neg (by omega)]
        simp
  · unfold ConnectionPool.get_connection ConnectionPool.checkpid
    rw [if_neg (by rw [hpid]; simp)]
    simp only [hav]
    unfold ConnectionPool.make_connection
    rw [if_pos (by omega)]
    simp
  · exact foldl_stepP_bound ops ⟨pid0, max0, 0, [], [], n0⟩ (Nat.zero_le _)

theorem pool_exhaustion_witness :
    ((⟨1, 2, 1, [], [], 5⟩ : Pool)._created_connections
      < (⟨1, 2, 1, [], [], 5⟩ : Pool).max_connections) ∧
    (ConnectionPool.get_connection ⟨1, 2, 1, [], [], 5⟩ 1).1 ≠ none ∧
    (ConnectionPool.get_connection ⟨1, 1, 1, [], [], 5⟩ 1).1 = none :=
  ⟨by decide, (pool_exhaustion ⟨1, 2, 1, [], [], 5⟩ 1).1 (by decide),
   (pool_exhaustion ⟨1, 1, 1, [], [], 5⟩ 1).2.1 rfl (by decide) rfl⟩

/-- C8: a `get_connection` call from a process identity different from the
pool's recorded owner first force-disconnects and discards every
previously tracked connection (both sets cleared), resets the created
count to zero and adopts the new identity, and only then serves the
request — handing out a freshly created connection counted from zero. -/
theorem pool_fork_reset (p : Pool) (curpid : Nat) (h : curpid ≠ p.pid) :
    ConnectionPool.checkpid p curpid =
      (⟨curpid, p.max_connections, 0, [], [], p.next_id⟩,
       p._available_connections ++ p._in_use_connections) ∧
    (ConnectionPool.get_connection p curpid).2
      = p._available_connections ++ p._in_use_connections ∧
    (0 < p.max_connections →
      (ConnectionPool.get_connection p curpid).1 =
        some (⟨p.next_id, curpid⟩,
          ⟨curpid, p.max_connections, 1, [], [⟨p.next_id, curpid⟩], p.next_id + 1⟩)) := by
  have hp : p.pid ≠ curpid := fun he => h he.symm
  have hck : ConnectionPool.checkpid p curpid =
      (⟨curpid, p.max_connections, 0, [], [], p.next_id⟩,
       p._available_connections ++ p._in_use_connections) := by
    unfold ConnectionPool.checkpid
    rw [if_pos hp]
  refine ⟨hck, ?_, fun hmax => ?_⟩
  · unfold ConnectionPool.get_connection
    rw [hck]
    unfold ConnectionPool.make_connection
    by_cases hm : p.max_connections ≤ 0
    · simp [hm]
    · simp [hm]
  · unfold ConnectionPool.get_connection
    rw [hck]
    simp only [List.getLast?_nil]
    unfold ConnectionPool.make_connection
    rw [if_neg (by simp; omega)]
    simp

theorem pool_fork_reset_witness :
    ConnectionPool.checkpid ⟨1, 4, 3, [⟨0, 1⟩], [⟨5, 1⟩], 2⟩ 2 =
      (⟨2, 4, 0, [], [], 2⟩, [⟨0, 1⟩, ⟨5, 1⟩]) ∧
    (ConnectionPool.get_connection ⟨1, 4, 3, [⟨0, 1⟩], [⟨5, 1⟩], 2⟩ 2).1 =
      some (⟨2, 2⟩, ⟨2, 4, 1, [], [⟨2, 2⟩], 3⟩) :=
  ⟨(pool_fork_reset ⟨1, 4, 3, [⟨0, 1⟩], [⟨5, 1⟩], 2⟩ 2 (by decide)).1,
   (pool_fork_reset ⟨1, 4, 3, [⟨0, 1⟩], [⟨5, 1⟩], 2⟩ 2 (by decide)).2.2 (by decide)⟩

theorem lend_ok_in_use (p : Pool) (curpid : Nat) (c : PConn) (p1 : Pool)
    (h : (ConnectionPool.get_connection p curpid).1 = some (c, p1)) :
    c ∈ p1._in_use_connections ∧ p1.pid = (ConnectionPool.checkpid p curpid).1.pid := by
  unfold ConnectionPool.get_connection at h
  cases hLast : (ConnectionPool.checkpid p curpid).1._available_connections.getLast? with
  | some c0 =>
    simp only [hLast, Option.some.injEq, Prod.mk.injEq] at h
    obtain ⟨hc, hp1⟩ := h
    subst hc
    rw [← hp1]
    exact ⟨List.mem_append_right _ (List.mem_singleton.mpr rfl), rfl⟩
  | none =>
    simp only [hLast] at h
    unfold ConnectionPool.make_connection at h
    by_cases hm : (ConnectionPool.checkpid p curpid).1.max_connections
        ≤ (ConnectionPool.checkpid p curpid).1._created_connections
    · simp only [if_pos hm] at h
      exact Option.noConfusion h
    · simp only [if_neg hm, Option.some.injEq, Prod.mk.injEq] at h
      obtain ⟨hc, hp1⟩ := h
      subst hc
      rw [← hp1]
      exact ⟨List.mem_append_right _ (List.mem_singleton.mpr rfl), rfl⟩

/-- C2 counterexample: a transport fault during `execute_command` does
not permanently remove the borrowed connection from the pool.  Starting
from a fresh pool, a `TimeoutError` on the first attempt (with
`retry_on_timeout` unset) disconnects the connection's socket, yet the
`finally` block releases the very same `Connection` object into the
pool's available list, and the next `get_connection` hands it out
again — refuting the claim that such a connection is never returned to
the available set. -/
theorem execute_command_releases_faulted_connection :
    (Beanstalk.execute_command ⟨1, 2, 0, [], [], 0⟩ 1 false .timeoutErr .success).disconnected
        = true ∧
    (Beanstalk.execute_command ⟨1, 2, 0, [], [], 0⟩ 1 false .timeoutErr .success).result
        = .raisedTimeout ∧
    (Beanstalk.execute_command ⟨1, 2, 0, [], [], 0⟩ 1 false .timeoutErr
        .success).pool._available_connections = [⟨0, 1⟩] ∧
    (ConnectionPool.get_connection
        (Beanstalk.execute_command ⟨1, 2, 0, [], [], 0⟩ 1 false .timeoutErr .success).pool 1).1
      = some (⟨0, 1⟩, ⟨1, 2, 1, [], [⟨0, 1⟩], 1⟩) := by
  decide

/-- C2 (amended): the moment a transport-level error (`TimeoutError` or
`ConnectionError`) occurs during the exchange, `execute_command`
disconnects the borrowed connection — its socket is destroyed — but the
`finally` block still releases the `Connection` object back to the pool,
and in the same-process case it lands in the available list, from which a
later `get_connection` can hand it out again (it reconnects lazily on next
use). -/
theorem execute_command_transport_fault_disconnects_then_releases
    (p : Pool) (curpid : Nat) (flag : Bool) (first second : Outcome)
    (c : PConn) (p1 : Pool)
    (hlend : (ConnectionPool.get_connection p curpid).1 = some (c, p1))
    (hfault : first = .timeoutErr ∨ first = .connErr) :
    (Beanstalk.execute_command p curpid flag first second).disconnected = true ∧
    (Beanstalk.execute_command p curpid flag first second).pool
      = ConnectionPool.release p1 curpid c ∧
    (curpid = p.pid → c.pid = curpid →
      c ∈ (Beanstalk.execute_command p curpid flag first second).pool._available_connections) := by
  obtain ⟨hin, hpid1⟩ := lend_ok_in_use p curpid c p1 hlend
  have hmain : (Beanstalk.execute_command p curpid flag first second).disconnected = true ∧
      (Beanstalk.execute_command p curpid flag first second).pool
        = ConnectionPool.release p1 curpid c := by
    cases hfault with
    | inl h1 =>
      subst h1
      cases flag <;> simp [Beanstalk.execute_command, hlend]
    | inr h1 =>
      subst h1
      simp [Beanstalk.execute_command, hlend]
  refine ⟨hmain.1, hmain.2, fun hcur hcpid => ?_⟩
  rw [hmain.2]
  have hckp : (ConnectionPool.checkpid p curpid).1 = p := by
    unfold ConnectionPool.checkpid
    rw [if_neg (by rw [hcur]; simp)]
  have hp1pid : p1.pid = curpid := by
    rw [hpid1, hckp, ← hcur]
  simp [ConnectionPool.release, ConnectionPool.checkpid, hp1pid, hcpid, hin]

theorem execute_command_transport_fault_witness :
    (ConnectionPool.get_connection ⟨1, 2, 0, [], [], 0⟩ 1).1
      = some (⟨0, 1⟩, ⟨1, 2, 1, [], [⟨0, 1⟩], 1⟩) ∧
    (Beanstalk.execute_command ⟨1, 2, 0, [], [], 0⟩ 1 true .connErr .success).disconnected
      = true ∧
    (⟨0, 1⟩ : PConn) ∈ (Beanstalk.execute_command ⟨1, 2, 0, [], [], 0⟩ 1 true .connErr
      .success).pool._available_connections :=
  ⟨by decide,
   (execute_command_transport_fault_disconnects_then_releases ⟨1, 2, 0, [], [], 0⟩ 1 true
     .connErr .success ⟨0, 1⟩ ⟨1, 2, 1, [], [⟨0, 1⟩], 1⟩ (by decide) (Or.inr rfl)).1,
   (execute_command_transport_fault_disconnects_then_releases ⟨1, 2, 0, [], [], 0⟩ 1 true
     .connErr .success ⟨0, 1⟩ ⟨1, 2, 1, [], [⟨0, 1⟩], 1⟩ (by decide) (Or.inr rfl)).2.2 rfl rfl⟩

/-- C4: after a transport fault on the first attempt `execute_command`
resends exactly once and the result of that single retry propagates
unchanged; a `TimeoutError` triggers the retry only when
`retry_on_timeout` is set (otherwise it propagates immediately after one
attempt), while a `ConnectionError` always triggers exactly one retry
regardless of the flag; non-transport outcomes are never retried. -/
theorem execute_command_retry_policy (p : Pool) (curpid : Nat) (flag : Bool)
    (first second : Outcome) (c : PConn) (p1 : Pool)
    (hlend : (ConnectionPool.get_connection p curpid).1 = some (c, p1)) :
    (first = .connErr →
      (Beanstalk.execute_command p curpid flag first second).attempts = 2 ∧
      (Beanstalk.execute_command p curpid flag first second).result
        = outcomeResult second) ∧
    (first = .timeoutErr → flag = true →
      (Beanstalk.execute_command p curpid flag first second).attempts = 2 ∧
      (Beanstalk.execute_command p curpid flag first second).result
        = outcomeResult second) ∧
    (first = .timeoutErr → flag = false →
      (Beanstalk.execute_command p curpid flag first second).attempts = 1 ∧
      (Beanstalk.execute_command p curpid flag first second).result
        = .raisedTimeout) ∧
    (first ≠ .timeoutErr → first ≠ .connErr →
      (Beanstalk.execute_command p curpid flag first second).attempts = 1 ∧
      (Beanstalk.execute_command p curpid flag first second).result
        = outcomeResult first) := by
  refine ⟨fun h1 => ?_, fun h1 h2 => ?_, fun h1 h2 => ?_, fun h1 h2 => ?_⟩
  · subst h1
    simp [Beanstalk.execute_command, hlend]
  · subst h1
    subst h2
    simp [Beanstalk.execute_command, hlend]
  · subst h1
    subst h2
    simp [Beanstalk.execute_command, hlend]
  · cases first with
    | timeoutErr => exact absurd rfl h1
    | connErr => exact absurd rfl h2
    | success => simp [Beanstalk.execute_command, hlend, outcomeResult]
    | serverErr => simp [Beanstalk.execute_command, hlend, outcomeResult]
    | invalidResp => simp [Beanstalk.execute_command, hlend, outcomeResult]

theorem execute_command_retry_policy_witness :
    (ConnectionPool.get_connection ⟨1, 2, 0, [], [], 0⟩ 1).1
      = some (⟨0, 1⟩, ⟨1, 2, 1, [], [⟨0, 1⟩], 1⟩) ∧
    (Beanstalk.execute_command ⟨1, 2, 0, [], [], 0⟩ 1 false .connErr .serverErr).attempts
      = 2 ∧
    (Beanstalk.execute_command ⟨1, 2, 0, [], [], 0⟩ 1 false .connErr .serverErr).result
      = .raisedServer :=
  ⟨by decide,
   (execute_command_retry_policy ⟨1, 2, 0, [], [], 0⟩ 1 false .connErr .serverErr ⟨0, 1⟩
     ⟨1, 2, 1, [], [⟨0, 1⟩], 1⟩ (by decide)).1 rfl⟩
